import Mathlib

/-!
# Verification of the ultrasound-sandbox beamforming core

Shallow embedding, over the real numbers, of the TypeScript beamforming core
(`packages/core/src/beamforming/...`): window synthesis, delay geometry,
array-factor pattern synthesis, pattern statistics, the CSV profile
serialization and the dynamic (scanline) beamforming simulation.

JavaScript `number` values are modelled as real numbers (`ℝ`); claims that
depend on IEEE-754 rounding are outside this embedding.  Lists stand for JS
arrays, `Option` for possibly-`undefined` fields.
-/

open Real

namespace Sandbox

/-- `Math.max(...w.map(Math.abs))` as used by the source on non-empty weight
lists; since every `|v| ≥ 0`, folding with initial value `0` agrees with the
JS spread-max on every non-empty list. -/
noncomputable def maxAbs (w : List ℝ) : ℝ :=
  (w.map (fun v => |v|)).foldl max 0

/-! ## Window synthesis (`profile/windows.ts`) -/

inductive WindowType where
  | rectangular | hamming | triangular | chebyshev | custom
  deriving DecidableEq, Repr

/-- `rectangularWindow(N)`: all ones. -/
def rectangularWindow (N : ℕ) : List ℝ :=
  List.replicate N 1

/-- `hammingWindow(N)`: `0.54 - 0.46*cos(2πn/(N-1))`, `[1]` for `N ≤ 1`. -/
noncomputable def hammingWindow (N : ℕ) : List ℝ :=
  if N ≤ 1 then [1]
  else
    let a0 : ℝ := 0.54
    let a1 : ℝ := 1 - a0
    let M : ℕ := N - 1
    (List.range N).map (fun (n : ℕ) => a0 - a1 * Real.cos ((2 * Real.pi * n) / M))

/-- `triangularWindow(N)`: `1 - |(n - M/2)/(M/2)|` with `M = N-1`, `[1]` for `N ≤ 1`. -/
noncomputable def triangularWindow (N : ℕ) : List ℝ :=
  if N ≤ 1 then [1]
  else
    let M : ℕ := N - 1
    (List.range N).map (fun (n : ℕ) => 1 - |((n : ℝ) - (M : ℝ) / 2) / ((M : ℝ) / 2)|)

/-- The source's own `acosh`: `log(z + sqrt(z*z - 1))`. -/
noncomputable def jsAcosh (z : ℝ) : ℝ :=
  Real.log (z + Real.sqrt (z * z - 1))

/-- `chebyshevWindow(N, sidelobeDb)` (Dolph-Chebyshev synthesis via an inverse
real cosine transform, direct O(N²) summation).  The JS `!isFinite(A)` guard is
vacuous over `ℝ` where `10^(db/20)` is always finite. -/
noncomputable def chebyshevWindow (N : ℕ) (sidelobeDb : ℝ) : List ℝ :=
  if N ≤ 1 then [1]
  else
    let M : ℕ := N - 1
    let A : ℝ := (10 : ℝ) ^ (sidelobeDb / 20)
    if A ≤ 1 then List.replicate N 1
    else
      let beta : ℝ := Real.cosh (jsAcosh A / M)
      let Tm : ℝ → ℝ := fun x =>
        if |x| ≤ 1 + 1e-12 then
          Real.cos (M * Real.arccos (max (-1) (min 1 x)))
        else
          let ax := max (1 + 1e-15) |x|
          let base := Real.cosh (M * jsAcosh ax)
          if x < 0 ∧ M % 2 = 1 then -base else base
      let TMbeta : ℝ := Real.cosh (M * jsAcosh beta)
      let Y : List ℝ := (List.range N).map (fun (k : ℕ) =>
        Tm (beta * Real.cos (Real.pi * k / N)) / TMbeta)
      let half : ℕ := N / 2
      let w : List ℝ := (List.range N).map (fun (n : ℕ) =>
        (Y.getD 0 0
          + ((List.range (half - 1)).map (fun (k : ℕ) =>
              2 * Y.getD (k + 1) 0 * Real.cos ((2 * Real.pi * (k + 1) * n) / N))).sum
          + (if N % 2 = 0 then Y.getD half 0 * Real.cos (Real.pi * n) else 0)) / N)
      let maxVal : ℝ := maxAbs w
      let inv : ℝ := if 0 < maxVal then 1 / maxVal else 1
      let w2 : List ℝ := w.map (fun v => v * inv)
      let w3 : List ℝ := w2.map (fun v => if v < 0 then 0 else v)
      let shift : ℕ := N / 2
      let wc : List ℝ := (List.range N).map (fun (i : ℕ) => w3.getD ((i + shift) % N) 0)
      (List.range N).map (fun (i : ℕ) =>
        if 2 * i + 1 = N then wc.getD i 0
        else 0.5 * (wc.getD i 0 + wc.getD (N - 1 - i) 0))

/-- `makeWindow(type, N, chebDb)`; the `default` switch branch (reached for
`"custom"`) returns a rectangular window. -/
noncomputable def makeWindow (type : WindowType) (N : ℕ) (chebDb : ℝ) : List ℝ :=
  match type with
  | .rectangular => rectangularWindow N
  | .hamming => hammingWindow N
  | .triangular => triangularWindow N
  | .chebyshev => chebyshevWindow N chebDb
  | .custom => rectangularWindow N

/-! ## Profile configuration and static computations (`profile/beamforming.ts`) -/

inductive SpacingUnit where
  | wavelength | meters
  deriving DecidableEq, Repr

structure ProfileConfig where
  elements : ℕ
  spacing : ℝ
  spacingUnit : SpacingUnit
  frequencyHz : ℝ
  waveSpeed : ℝ
  steerAngleDeg : ℝ
  windowType : WindowType
  chebyshevSidelobeDb : Option ℝ
  focusDepth : Option ℝ
  customWeights : Option (List ℝ)

structure PerElementDelays where
  timeDelays : List ℝ
  phaseRadians : List ℝ

structure PatternPoint where
  angleDeg : ℝ
  intensityLin : ℝ
  /-- `10*log10(intensityLin)`; `-Infinity` (here `⊥ : EReal`) when the
  linear intensity is not positive. -/
  intensityDb : EReal

structure ProfileSnapshot where
  weights : List ℝ
  delays : PerElementDelays

structure BeamformFullProfile where
  config : ProfileConfig
  snapshot : ProfileSnapshot
  pattern : List PatternPoint

/-- `spacingMeters(cfg)`. -/
noncomputable def spacingMeters (cfg : ProfileConfig) : ℝ :=
  let lambda := cfg.waveSpeed / cfg.frequencyHz
  match cfg.spacingUnit with
  | .wavelength => cfg.spacing * lambda
  | .meters => cfg.spacing

/-- Final normalization step of `computeWeights`: divide by the max absolute
value when it is positive, otherwise leave the list unchanged. -/
noncomputable def normalizeMax (w : List ℝ) : List ℝ :=
  let maxVal := maxAbs w
  if 0 < maxVal then w.map (fun v => v / maxVal) else w

/-- `computeWeights(cfg)`: custom weights when valid, otherwise the preset
window (silently Hamming for invalid custom weights), re-normalized to unit
max absolute value. -/
noncomputable def computeWeights (cfg : ProfileConfig) : List ℝ :=
  let N := cfg.elements
  let w : List ℝ :=
    if cfg.windowType = .custom then
      match cfg.customWeights with
      | some cw => if cw.length = N then cw else hammingWindow N
      | none => hammingWindow N
    else
      makeWindow cfg.windowType N (cfg.chebyshevSidelobeDb.getD 30)
  normalizeMax w

/-- `computeDelays(cfg)`: angle-only steering when `focusDepth` is absent or
zero, otherwise focused (near-field) steering referenced to the array
center. -/
noncomputable def computeDelays (cfg : ProfileConfig) : PerElementDelays :=
  let N := cfg.elements
  let d := spacingMeters cfg
  let c := cfg.waveSpeed
  let theta0 := cfg.steerAngleDeg * Real.pi / 180
  let center : ℝ := ((N : ℝ) - 1) / 2
  match cfg.focusDepth with
  | none =>
      { timeDelays := (List.range N).map (fun (i : ℕ) =>
          (((i : ℝ) - center) * d * Real.sin theta0) / c)
        phaseRadians := (List.range N).map (fun (i : ℕ) =>
          2 * Real.pi * cfg.frequencyHz * ((((i : ℝ) - center) * d * Real.sin theta0) / c)) }
  | some focusDepth =>
      if focusDepth = 0 then
        { timeDelays := (List.range N).map (fun (i : ℕ) =>
            (((i : ℝ) - center) * d * Real.sin theta0) / c)
          phaseRadians := (List.range N).map (fun (i : ℕ) =>
            2 * Real.pi * cfg.frequencyHz * ((((i : ℝ) - center) * d * Real.sin theta0) / c)) }
      else
        let xF := focusDepth * Real.sin theta0
        let zF := focusDepth * Real.cos theta0
        let rRef := Real.sqrt ((0 - xF) * (0 - xF) + zF * zF)
        let tau : ℕ → ℝ := fun i =>
          let x := ((i : ℝ) - center) * d
          (Real.sqrt ((x - xF) * (x - xF) + zF * zF) - rRef) / c
        { timeDelays := (List.range N).map tau
          phaseRadians := (List.range N).map (fun (i : ℕ) =>
            2 * Real.pi * cfg.frequencyHz * tau i) }

/-- Raw (un-normalized) array-factor intensity `|AF(θ)|² = re² + im²` at one
sweep angle, exactly the per-angle body of `computePattern`'s first loop. -/
noncomputable def rawIntensity (cfg : ProfileConfig) (angDeg : ℝ) : ℝ :=
  let N := cfg.elements
  let w := computeWeights cfg
  let d := spacingMeters cfg
  let lambda := cfg.waveSpeed / cfg.frequencyHz
  let kd := (2 * Real.pi / lambda) * d
  let c : ℝ := ((N : ℝ) - 1) / 2
  let s0 := Real.sin (cfg.steerAngleDeg * Real.pi / 180)
  let s := Real.sin (angDeg * Real.pi / 180)
  let re := ((List.range N).map (fun (i : ℕ) =>
    w.getD i 0 * Real.cos (((i : ℝ) - c) * kd * (s - s0)))).sum
  let im := ((List.range N).map (fun (i : ℕ) =>
    w.getD i 0 * Real.sin (((i : ℝ) - c) * kd * (s - s0)))).sum
  re * re + im * im

/-- The running maximum of `computePattern`'s first loop (`maxI` starts at `0`
and is replaced whenever a strictly larger intensity appears, which is exactly
a left fold with `max`). -/
noncomputable def patternMaxI (cfg : ProfileConfig) (anglesDeg : List ℝ) : ℝ :=
  anglesDeg.foldl (fun m a => max m (rawIntensity cfg a)) 0

/-- `computePattern(cfg, anglesDeg, normalized)`. -/
noncomputable def computePattern (cfg : ProfileConfig) (anglesDeg : List ℝ)
    (normalized : Bool) : List PatternPoint :=
  let maxI := patternMaxI cfg anglesDeg
  anglesDeg.map (fun ang =>
    let I := rawIntensity cfg ang
    let lin : ℝ := if normalized then (if 0 < maxI then I / maxI else 0) else I
    { angleDeg := ang
      intensityLin := lin
      intensityDb := if 0 < lin then ((10 * Real.logb 10 lin : ℝ) : EReal) else ⊥ })

/-- A concrete single-element rectangular configuration, used to exercise the
pattern-synthesis results on explicit inputs. -/
def rectCfg1 : ProfileConfig :=
  { elements := 1, spacing := 0.5, spacingUnit := .wavelength,
    frequencyHz := 5000000, waveSpeed := 1540, steerAngleDeg := 0,
    windowType := .rectangular, chebyshevSidelobeDb := none,
    focusDepth := none, customWeights := none }

/-- A concrete two-element profile, used to exercise the CSV round-trip on an
explicit input. -/
def testProfile : BeamformFullProfile :=
  { config := { elements := 2, spacing := 0.5, spacingUnit := .wavelength,
                frequencyHz := 5000000, waveSpeed := 1540, steerAngleDeg := 10,
                windowType := .hamming, chebyshevSidelobeDb := none,
                focusDepth := some 0.05, customWeights := none }
    snapshot := { weights := [1, 0.5]
                  delays := { timeDelays := [0, 1e-7], phaseRadians := [0, 3] } }
    pattern := [] }

/-! ## Pattern statistics (`pattern-stats.ts`) -/

structure PatternStats where
  /-- Peak sidelobe level in dB; `-Infinity` is `some ⊥`, `null` is `none`. -/
  pslDb : Option EReal
  pslLin : Option ℝ
  islrDb : Option ℝ
  fwhmDeg : Option ℝ
  mainLobeArea : Option ℝ
  totalArea : Option ℝ

/-- The all-`null` early-exit result of `computePatternStats` (the omitted
`mainLobeArea`/`totalArea` fields are `undefined`, i.e. `none`). -/
def allNullStats : PatternStats :=
  { pslDb := none, pslLin := none, islrDb := none, fwhmDeg := none
    mainLobeArea := none, totalArea := none }

/-- The summation loop of `trapezoidalIntegrate` over consecutive pairs. -/
noncomputable def trapezoidSum : List ℝ → List ℝ → ℝ
  | a :: b :: xs, u :: v :: ys => 0.5 * (u + v) * (b - a) + trapezoidSum (b :: xs) (v :: ys)
  | _, _ => 0

/-- `trapezoidalIntegrate(x, y)`: zero on mismatched or empty input, otherwise
the trapezoidal sum over consecutive pairs. -/
noncomputable def trapezoidalIntegrate (x y : List ℝ) : ℝ :=
  if x.length ≠ y.length ∨ x.length = 0 then 0
  else trapezoidSum x y

/-- The peak-index search loop of `computePatternStats` (first index of the
maximum value, scanning left to right with a strict comparison). -/
noncomputable def findPeakIdx (vals : List ℝ) : ℕ :=
  (List.range vals.length).foldl
    (fun best i => if vals.getD best 0 < vals.getD i 0 then i else best) 0

/-- The `findCross` while-loop: starting at `i`, step by `dir` while the next
index stays in bounds and the current value is at least `half`.  The loop
visits each index at most once, so `vals.length + 1` fuel is enough. -/
noncomputable def findCrossLoop (vals : List ℝ) (half : ℝ) (dir : ℤ) :
    ℕ → ℤ → ℤ
  | 0, i => i
  | fuel + 1, i =>
      if 0 ≤ i + dir ∧ i + dir < (vals.length : ℤ) ∧ half ≤ vals.getD i.toNat 0 then
        findCrossLoop vals half dir fuel (i + dir)
      else i

/-- `findCross(start, dir)`: half-power crossing by linear interpolation
between the last in-lobe sample and the first out-of-lobe sample. -/
noncomputable def findCross (angles vals : List ℝ) (half : ℝ) (start : ℕ)
    (dir : ℤ) : ℝ :=
  let j := findCrossLoop vals half dir (vals.length + 1) (start : ℤ)
  let k := j - dir
  if k < 0 ∨ (vals.length : ℤ) ≤ k then angles.getD j.toNat 0
  else
    let xk := angles.getD k.toNat 0
    let xj := angles.getD j.toNat 0
    let yk := vals.getD k.toNat 0
    let yj := vals.getD j.toNat 0
    if yk = yj then xk
    else xk + ((half - yk) / (yj - yk)) * (xj - xk)

/-- The `findNull` scanning loop: starting from `i`, move by `dir` while
strictly inside the array, returning the first local minimum's angle. -/
noncomputable def findNullLoop (angles vals : List ℝ) (dir : ℤ) :
    ℕ → ℤ → Option ℝ
  | 0, _ => none
  | fuel + 1, i =>
      if 0 < i ∧ i < (vals.length : ℤ) - 1 then
        if vals.getD i.toNat 0 ≤ vals.getD (i - 1).toNat 0 ∧
            vals.getD i.toNat 0 ≤ vals.getD (i + 1).toNat 0 then
          some (angles.getD i.toNat 0)
        else findNullLoop angles vals dir fuel (i + dir)
      else none

/-- `findNull(startIdx, dir)`. -/
noncomputable def findNull (angles vals : List ℝ) (startIdx : ℕ) (dir : ℤ) :
    Option ℝ :=
  findNullLoop angles vals dir (vals.length + 1) ((startIdx : ℤ) + dir)

/-- `Number.EPSILON`. -/
noncomputable def numberEpsilon : ℝ := 1 / 2 ^ 52

/-- The main (non-degenerate) branch of `computePatternStats`, after the peak
has been found and is nonzero. -/
noncomputable def patternStatsMain (angles vals : List ℝ) (peakIdx : ℕ)
    (peakVal : ℝ) : PatternStats :=
  let half := peakVal * 0.5
  let len := vals.length
  let boundaries : ℝ × ℝ :=
    if half ≤ vals.getD peakIdx 0 then
      match findNull angles vals peakIdx (-1), findNull angles vals peakIdx 1 with
      | some nullLeft, some nullRight =>
          if nullLeft < angles.getD peakIdx 0 ∧ angles.getD peakIdx 0 < nullRight then
            (nullLeft, nullRight)
          else
            ((if peakIdx = 0 then angles.getD 0 0 else findCross angles vals half peakIdx (-1)),
             (if peakIdx = len - 1 then angles.getD (angles.length - 1) 0
              else findCross angles vals half peakIdx 1))
      | _, _ =>
          ((if peakIdx = 0 then angles.getD 0 0 else findCross angles vals half peakIdx (-1)),
           (if peakIdx = len - 1 then angles.getD (angles.length - 1) 0
            else findCross angles vals half peakIdx 1))
    else (angles.getD 0 0, angles.getD (angles.length - 1) 0)
  let leftCross := boundaries.1
  let rightCross := boundaries.2
  let fwhm : ℝ := max 0 (rightCross - leftCross)
  let paired := angles.zip vals
  let inMask : ℝ → Prop := fun a => leftCross - 1e-12 ≤ a ∧ a ≤ rightCross + 1e-12
  let mainPairs := paired.filter (fun av => decide (inMask av.1))
  let totalArea := trapezoidalIntegrate angles vals
  let mainArea := trapezoidalIntegrate (mainPairs.map Prod.fst) (mainPairs.map Prod.snd)
  let maxSidelobe : ℝ := paired.foldl
    (fun mx av => if ¬ inMask av.1 ∧ mx < av.2 then av.2 else mx) 0
  let pslLin : ℝ := if 0 < maxSidelobe then maxSidelobe else 0
  let pslDb : Option EReal :=
    if 0 < pslLin then some ((10 * Real.logb 10 (pslLin / peakVal) : ℝ) : EReal)
    else some (⊥ : EReal)
  let islrDb : Option ℝ :=
    if 0 < mainArea then
      let ratio := max 0 (totalArea - mainArea) / mainArea
      some (10 * Real.logb 10 (if ratio = 0 then numberEpsilon else ratio))
    else none
  { pslDb := pslDb, pslLin := some pslLin, islrDb := islrDb
    fwhmDeg := some fwhm, mainLobeArea := some mainArea, totalArea := some totalArea }

/-- `computePatternStats(pointsIn)`.  The sort mirrors the stable ascending
JS sort by `angleDeg`; `Number.isFinite(p.intensityLin)` is always true over
`ℝ`, so `vals` is just the list of linear intensities. -/
noncomputable def computePatternStats (pointsIn : List PatternPoint) : PatternStats :=
  if pointsIn.length = 0 then allNullStats
  else
    let pts := pointsIn.mergeSort (fun a b => decide (a.angleDeg ≤ b.angleDeg))
    let angles := pts.map (fun p => p.angleDeg)
    let vals := pts.map (fun p => p.intensityLin)
    let peakIdx := findPeakIdx vals
    let peakVal := vals.getD peakIdx 0
    if peakVal = 0 then allNullStats
    else patternStatsMain angles vals peakIdx peakVal

/-! ## Dynamic beamforming (`dynamic/types.ts`, `dynamic/util.ts`,
`dynamic/beamformers/*.ts`, `dynamic/generators/*.ts`) -/

inductive ScanType where
  | linear | phased
  deriving DecidableEq, Repr

structure ScanningConfig where
  numScanLines : ℕ
  type : ScanType
  range : ℝ × ℝ
  samples : ℕ

structure ArrayConfig where
  elements : ℕ
  elementSpacing : ℝ

structure DynamicBeamformingConfig where
  timeStep : ℝ
  propagationSpeed : ℝ
  scanning : ScanningConfig
  array : ArrayConfig

/-- `SampleMatrix`: shape `[samples][elements]`. -/
abbrev SampleMatrix := List (List ℝ)

/-- `scanlineParam(cfg, scanlineIndex)`: midpoint for `numScanLines ≤ 1`,
otherwise linear interpolation of the scan range. -/
noncomputable def scanlineParam (cfg : DynamicBeamformingConfig)
    (scanlineIndex : ℕ) : ℝ :=
  let minVal := cfg.scanning.range.1
  let maxVal := cfg.scanning.range.2
  if cfg.scanning.numScanLines ≤ 1 then (minVal + maxVal) / 2
  else
    let t : ℝ := (scanlineIndex : ℝ) / ((cfg.scanning.numScanLines : ℝ) - 1)
    minVal + t * (maxVal - minVal)

/-- `elementPositionMeters(index, array)`. -/
noncomputable def elementPositionMeters (index : ℕ) (array : ArrayConfig) : ℝ :=
  ((index : ℝ) - ((array.elements : ℝ) - 1) / 2) * array.elementSpacing

/-- `sampleRowLinear(matrix, elementIndex, sampleIndex)`: fractional-sample
linear interpolation with zero/clamp semantics at the boundaries. -/
noncomputable def sampleRowLinear (matrix : SampleMatrix) (elementIndex : ℕ)
    (sampleIndex : ℝ) : ℝ :=
  let s0 : ℤ := ⌊sampleIndex⌋
  let frac : ℝ := sampleIndex - (s0 : ℝ)
  let s1 : ℤ := s0 + 1
  if s0 < 0 ∨ (matrix.length : ℤ) ≤ s0 then 0
  else
    let row0 := (matrix.getD s0.toNat []).getD elementIndex 0
    if frac ≤ 1e-12 then row0
    else if s1 < 0 ∨ (matrix.length : ℤ) ≤ s1 then row0
    else
      let row1 := (matrix.getD s1.toNat []).getD elementIndex 0
      row0 * (1 - frac) + row1 * frac

/-- `createSumBeamformer().beamform(matrix, _scanlineIndex, cfg)`: plain sum
across elements (the index argument is ignored by the source closure). -/
noncomputable def sumBeamform (matrix : SampleMatrix) (_scanlineIndex : ℕ)
    (cfg : DynamicBeamformingConfig) : List ℝ :=
  (List.range cfg.scanning.samples).map (fun (s : ℕ) =>
    ((List.range cfg.array.elements).map (fun (e : ℕ) =>
      (matrix.getD s []).getD e 0)).sum)

/-- `createDelayAndSumBeamformer().beamform(matrix, scanlineIndex, cfg)`:
phased-only delay-and-sum; for non-phased scanning it logs an error and falls
back to the plain sum. -/
noncomputable def delayAndSumBeamform (matrix : SampleMatrix)
    (scanlineIndex : ℕ) (cfg : DynamicBeamformingConfig) : List ℝ :=
  let samples := cfg.scanning.samples
  let elements := cfg.array.elements
  let dt := cfg.timeStep
  let c := cfg.propagationSpeed
  if cfg.scanning.type ≠ .phased then
    (List.range samples).map (fun (s : ℕ) =>
      ((List.range elements).map (fun (e : ℕ) => (matrix.getD s []).getD e 0)).sum)
  else
    let thetaDeg := scanlineParam cfg scanlineIndex
    let theta := thetaDeg * Real.pi / 180
    let sinTheta := Real.sin theta
    let shift : ℕ → ℝ := fun e =>
      -((elementPositionMeters e cfg.array * sinTheta) / c) / dt
    (List.range samples).map (fun (s : ℕ) =>
      ((List.range elements).map (fun (e : ℕ) =>
        sampleRowLinear matrix e ((s : ℝ) + shift e))).sum)

structure ApodizedOptions where
  windowType : Option WindowType
  chebyshevSidelobeDb : Option ℝ

/-- `createDelayAndSumApodizedBeamformer(opts).beamform(...)`: like
delay-and-sum but each element is scaled by its apodization weight; for
non-phased scanning it falls back to the apodized non-delayed sum. -/
noncomputable def delayAndSumApodizedBeamform (opts : ApodizedOptions)
    (matrix : SampleMatrix) (scanlineIndex : ℕ)
    (cfg : DynamicBeamformingConfig) : List ℝ :=
  let samples := cfg.scanning.samples
  let elements := cfg.array.elements
  let dt := cfg.timeStep
  let c := cfg.propagationSpeed
  let windowType := opts.windowType.getD .hamming
  let cheb := opts.chebyshevSidelobeDb.getD 30
  if cfg.scanning.type ≠ .phased then
    let w := makeWindow windowType elements cheb
    (List.range samples).map (fun (s : ℕ) =>
      ((List.range elements).map (fun (e : ℕ) =>
        (matrix.getD s []).getD e 0 * w.getD e 0)).sum)
  else
    let thetaDeg := scanlineParam cfg scanlineIndex
    let theta := thetaDeg * Real.pi / 180
    let sinTheta := Real.sin theta
    let weights := makeWindow windowType elements cheb
    let shift : ℕ → ℝ := fun e =>
      -((elementPositionMeters e cfg.array * sinTheta) / c) / dt
    (List.range samples).map (fun (s : ℕ) =>
      ((List.range elements).map (fun (e : ℕ) =>
        weights.getD e 0 * sampleRowLinear matrix e ((s : ℝ) + shift e))).sum)

structure PointSourceGeneratorConfig where
  offset : ℝ
  speed : ℝ
  frequencyHz : ℝ
  amplitude : Option ℝ
  phase0 : Option ℝ

/-- Variant A (`generators/point-source.ts`, transmit delay ignored):
`generateScanline(_scanlineIndex, cfg)` — the scanline index parameter is
ignored, the one-way time of flight is doubled. -/
noncomputable def pointSourceScanlineIgnoredTx (config : PointSourceGeneratorConfig)
    (_scanlineIndex : ℕ) (cfg : DynamicBeamformingConfig) : SampleMatrix :=
  let amplitude := config.amplitude.getD 1
  let phase0 := config.phase0.getD 0
  let samples := cfg.scanning.samples
  let elements := cfg.array.elements
  let dt := cfg.timeStep
  let c := cfg.propagationSpeed
  let isPhased := cfg.scanning.type = .phased
  let thetaRad := if isPhased then config.offset * Real.pi / 180 else 0
  let z0 : ℝ := 1e-3
  let xOffset := if isPhased then 0 else config.offset
  (List.range samples).map (fun (s : ℕ) =>
    let t := (s : ℝ) * dt
    let z := z0 + config.speed * t
    let xCenter := if isPhased then z * Real.tan thetaRad else xOffset
    (List.range elements).map (fun (e : ℕ) =>
      let xElem := elementPositionMeters e cfg.array
      let r := Real.sqrt ((xElem - xCenter) * (xElem - xCenter) + z * z)
      let tau := r / c
      let omega := 2 * Real.pi * config.frequencyHz
      amplitude * Real.cos (omega * (t - 2 * tau) + phase0)))

/-- Variant B (explicit transmit+receive delays): the scanline index parameter
is likewise ignored. -/
noncomputable def pointSourceScanlineTxRx (config : PointSourceGeneratorConfig)
    (_scanlineIndex : ℕ) (cfg : DynamicBeamformingConfig) : SampleMatrix :=
  let amplitude := config.amplitude.getD 1
  let phase0 := config.phase0.getD 0
  let samples := cfg.scanning.samples
  let elements := cfg.array.elements
  let dt := cfg.timeStep
  let c := cfg.propagationSpeed
  let isPhased := cfg.scanning.type = .phased
  let thetaRad := if isPhased then config.offset * Real.pi / 180 else 0
  let z0 : ℝ := 1e-3
  let xOffset := if isPhased then 0 else config.offset
  (List.range samples).map (fun (s : ℕ) =>
    let t := (s : ℝ) * dt
    let z := z0 + config.speed * t
    let xCenter := if isPhased then z * Real.tan thetaRad else xOffset
    let rTx := Real.sqrt (xCenter * xCenter + z * z)
    let tauTx := rTx / c
    let omega := 2 * Real.pi * config.frequencyHz
    (List.range elements).map (fun (e : ℕ) =>
      let xElem := elementPositionMeters e cfg.array
      let rRx := Real.sqrt ((xElem - xCenter) * (xElem - xCenter) + z * z)
      let tauRx := rRx / c
      amplitude * Real.cos (omega * (t - (tauTx + tauRx)) + phase0)))

/-! ## CSV profile serialization (`profile/csv.ts`)

The CSV text is modelled one comma-separated field at a time: a `Cell` is
either a literal string field or the decimal rendering of a JS number, and a
line is its list of fields.  This captures exactly the information the parser
recovers (JS `Number(String(x)) = x` for finite doubles, so a numeric field
round-trips to the written precision). -/

inductive Cell where
  /-- A literal (non-numeric) field of the line. -/
  | str (s : String)
  /-- The decimal rendering of the JS number `x`. -/
  | num (x : ℝ)

abbrev CsvLine := List Cell

/-- The string interpolation of a `spacingUnit` value. -/
def spacingUnitStr : SpacingUnit → String
  | .wavelength => "wavelength"
  | .meters => "meters"

/-- The string interpolation of a `windowType` value. -/
def windowTypeStr : WindowType → String
  | .rectangular => "rectangular"
  | .hamming => "hamming"
  | .triangular => "triangular"
  | .chebyshev => "chebyshev"
  | .custom => "custom"

/-- `${list[i]}` for a JS array: the rendered element when in range, the
string `"undefined"` otherwise. -/
noncomputable def cellOfIdx (l : List ℝ) (i : ℕ) : Cell :=
  match l.get? i with
  | some x => .num x
  | none => .str "undefined"

/-- The per-element data rows written by `toCsv`
(`weights.map((w, i) => ...)`, carrying the running index `i`). -/
noncomputable def toCsvRows (i : ℕ) : List ℝ → List ℝ → List ℝ → List CsvLine
  | [], _, _ => []
  | w :: ws, phis, taus =>
      [.num (i : ℝ), .num w, cellOfIdx phis i, cellOfIdx taus i]
        :: toCsvRows (i + 1) ws phis taus

/-- `toCsv(result)`: the header block, a blank line, the data header row and
one row per weight. -/
noncomputable def toCsv (result : BeamformFullProfile) : List CsvLine :=
  let config := result.config
  let profile := result.snapshot
  [[.str "# BeamformerConfig"],
   [.str "elements", .num (config.elements : ℝ)],
   [.str "spacing", .num config.spacing],
   [.str "spacingUnit", .str (spacingUnitStr config.spacingUnit)],
   [.str "frequencyHz", .num config.frequencyHz],
   [.str "waveSpeed", .num config.waveSpeed],
   [.str "steerAngleDeg", .num config.steerAngleDeg],
   [.str "windowType", .str (windowTypeStr config.windowType)],
   [.str "focusDepth", match config.focusDepth with
     | some x => .num x
     | none => .str ""],
   [.str "chebyshevSidelobeDb", match config.chebyshevSidelobeDb with
     | some x => .num x
     | none => .str ""],
   [.str "customWeights", .str (match config.customWeights with
     | some _ => "present"
     | none => "")],
   []]
  ++ [[.str "index", .str "weight", .str "phaseRadians", .str "timeDelaySeconds"]]
  ++ toCsvRows 0 profile.weights profile.delays.phaseRadians profile.delays.timeDelays

/-- A line whose trimmed join is empty (skipped by `if (!L) continue`). -/
def lineBlank : CsvLine → Bool
  | [] => true
  | [.str ""] => true
  | _ => false

/-- `s.startsWith("#")`: a single-character prefix test is exactly a first
character comparison. -/
def startsWithHash (s : String) : Bool :=
  match s.data with
  | c :: _ => c == '#'
  | [] => false

/-- `L.startsWith("#")`: determined by the first field (a rendered number
never starts with `#`). -/
def lineIsComment : CsvLine → Bool
  | .str s :: _ => startsWithHash s
  | _ => false

/-- `L.startsWith("index,weight,phaseRadians,timeDelaySeconds")`. -/
def lineIsDataHeader : CsvLine → Bool
  | .str a :: .str b :: .str c :: .str d :: _ =>
      a == "index" && b == "weight" && c == "phaseRadians" && d == "timeDelaySeconds"
  | _ => false

/-- Whether the map key written by `map.set(parts[0], ...)` equals the literal
string `k` (a rendered number never equals one of the config key names). -/
def keyMatches (c : Cell) (k : String) : Bool :=
  match c with
  | .str s => s == k
  | .num _ => false

/-- The key/value map built before the data header: prepend-on-set with
first-match lookup gives JS `Map`'s last-set-wins `get`. -/
abbrev CsvMap := List (Cell × List Cell)

def mapGet (m : CsvMap) (k : String) : Option (List Cell) :=
  (m.find? (fun kv => keyMatches kv.1 k)).map (fun kv => kv.2)

/-- One step of the pre-header loop: a line with at least two fields is
recorded as `key ↦ joined rest`. -/
def insertKV (m : CsvMap) : CsvLine → CsvMap
  | k :: v :: vs => (k, v :: vs) :: m
  | _ => m

/-- A line that, when scanned before the data header, would create an
`"elements"` entry in the key/value map (at least two fields, first field the
key `elements`). -/
def elementsKeyLine : CsvLine → Bool
  | c :: _ :: _ => keyMatches c "elements"
  | _ => false

/-- The pre-header scanning loop of `parseCsvConfig`: skip blank and comment
lines, stop at the data header (returning the map and the remaining lines),
collect `key,value` pairs otherwise; `none` when the header is never found. -/
def headerPhase : List CsvLine → CsvMap → Option (CsvMap × List CsvLine)
  | [], _ => none
  | L :: rest, m =>
      if lineBlank L then headerPhase rest m
      else if lineIsComment L then headerPhase rest m
      else if lineIsDataHeader L then some (m, rest)
      else headerPhase rest (insertKV m L)

/-- JS `Number()` of a single written field.  A numeric field recovers the
written number exactly; `Number("")` is `0`.  `Number` of a non-numeric,
non-empty string is `NaN`, which has no counterpart in `ℝ` — no claim under
verification exercises that case, and it is mapped to `0` here. -/
noncomputable def cellNumber : Cell → ℝ
  | .num x => x
  | .str _ => 0

/-- JS `Number()` of a stored map value (the comma-join of the line's tail).
Multi-field joins are `NaN` in JS (unexercised by the claims, mapped to 0). -/
noncomputable def valNumber : List Cell → ℝ
  | [c] => cellNumber c
  | _ => 0

/-- JS truthiness of a stored map value: only the empty string is falsy (a
rendered number and any comma-join are non-empty strings). -/
def valTruthy : List Cell → Bool
  | [] => false
  | [.str s] => !(s == "")
  | _ => true

/-- The stored map value read back as a string (used for the unchecked
`as SpacingUnit` / `as WindowType` casts).  Joins of several fields and
rendered numbers are not needed by any claim and map to `""`. -/
def valString : List Cell → String
  | [.str s] => s
  | _ => ""

/-- The data-row loop of `parseCsvConfig`: skip blank lines, skip lines with
fewer than two fields, otherwise push `Number(wStr)` for the second field. -/
noncomputable def parseWeights : List CsvLine → List ℝ
  | [] => []
  | L :: rest =>
      if lineBlank L then parseWeights rest
      else if 2 ≤ L.length then cellNumber (L.getD 1 (.str "")) :: parseWeights rest
      else parseWeights rest

/-- The configuration assembled by `parseCsvConfig`.  JS builds a
`ProfileConfig`, but nothing constrains the parsed values to the declared
types: `elements` is whatever number was parsed and the two `as` casts keep
plain strings, which is what this structure records. -/
structure ParsedConfig where
  elements : ℝ
  spacing : ℝ
  spacingUnit : String
  frequencyHz : ℝ
  waveSpeed : ℝ
  steerAngleDeg : ℝ
  windowType : String
  chebyshevSidelobeDb : Option ℝ
  focusDepth : Option ℝ
  customWeights : Option (List ℝ)

structure ParsedProfile where
  config : ParsedConfig
  weights : List ℝ

/-- Field extraction of `parseCsvConfig` after the map has been built. -/
noncomputable def buildParsedConfig (m : CsvMap) (weights : List ℝ) : ParsedConfig :=
  { elements := match mapGet m "elements" with
      | some v => valNumber v
      | none => 0
    spacing := match mapGet m "spacing" with
      | some v => valNumber v
      | none => 0
    spacingUnit := match mapGet m "spacingUnit" with
      | some v => valString v
      | none => "wavelength"
    frequencyHz := match mapGet m "frequencyHz" with
      | some v => valNumber v
      | none => 1
    waveSpeed := match mapGet m "waveSpeed" with
      | some v => valNumber v
      | none => 1540
    steerAngleDeg := match mapGet m "steerAngleDeg" with
      | some v => valNumber v
      | none => 0
    windowType := match mapGet m "windowType" with
      | some v => valString v
      | none => "rectangular"
    focusDepth := match mapGet m "focusDepth" with
      | some v => if valTruthy v then some (valNumber v) else none
      | none => none
    chebyshevSidelobeDb := match mapGet m "chebyshevSidelobeDb" with
      | some v => if valTruthy v then some (valNumber v) else none
      | none => none
    customWeights :=
      if (weights.length : ℝ) = (match mapGet m "elements" with
          | some v => valNumber v
          | none => 0) then some weights else none }

/-- `parseCsvConfig(csv)`: throws (`Except.error`) exactly when the data
header row is never found. -/
noncomputable def parseCsvConfig (lines : List CsvLine) : Except String ParsedProfile :=
  match headerPhase lines [] with
  | none => .error "CSV missing data header row."
  | some (m, rest) =>
      let weights := parseWeights rest
      .ok { config := buildParsedConfig m weights, weights := weights }

/-! ## Helper lemmas -/

theorem foldl_max_div (l : List ℝ) (m : ℝ) (hm : 0 ≤ m) :
    ∀ init : ℝ, (l.map (fun x => x / m)).foldl max (init / m) = (l.foldl max init) / m := by
  induction l with
  | nil => intro init; rfl
  | cons a t ih =>
      intro init
      simp only [List.map_cons, List.foldl_cons]
      rw [max_div_div_right hm, ih]

theorem maxAbs_map_div (w : List ℝ) (m : ℝ) (hm : 0 < m) :
    maxAbs (w.map (fun v => v / m)) = maxAbs w / m := by
  unfold maxAbs
  rw [List.map_map]
  have habs : ((fun v : ℝ => |v|) ∘ fun v : ℝ => v / m)
      = ((fun x : ℝ => x / m) ∘ fun v : ℝ => |v|) := by
    funext v
    simp [abs_div, abs_of_pos hm]
  rw [habs, ← List.map_map]
  have h := foldl_max_div (w.map fun v => |v|) m hm.le 0
  simpa using h

theorem dataHeader_shape (H : CsvLine) (hH : lineIsDataHeader H = true) :
    ∃ rest, H = .str "index" :: .str "weight" :: .str "phaseRadians"
      :: .str "timeDelaySeconds" :: rest := by
  match H, hH with
  | .str a :: .str b :: .str c :: .str d :: rest, hH =>
      simp only [lineIsDataHeader, Bool.and_eq_true, beq_iff_eq] at hH
      obtain ⟨⟨⟨ha, hb⟩, hc⟩, hd⟩ := hH
      exact ⟨rest, by rw [ha, hb, hc, hd]⟩

theorem mapGet_insertKV_of_not_elements (m : CsvMap) (L : CsvLine)
    (hL : elementsKeyLine L = false) :
    mapGet (insertKV m L) "elements" = mapGet m "elements" := by
  match L, hL with
  | [], _ => rfl
  | [c], _ => rfl
  | c :: v :: vs, hL =>
      simp only [elementsKeyLine] at hL
      simp [insertKV, mapGet, List.find?_cons, hL]

theorem headerPhase_append (H : CsvLine) (post : List CsvLine)
    (hH : lineIsDataHeader H = true) :
    ∀ pre : List CsvLine, (∀ L ∈ pre, lineIsDataHeader L = false) →
    ∀ m : CsvMap, ∃ m', headerPhase (pre ++ H :: post) m = some (m', post) ∧
      ((∀ L ∈ pre, elementsKeyLine L = false) →
        mapGet m' "elements" = mapGet m "elements") := by
  intro pre
  induction pre with
  | nil =>
      intro _ m
      refine ⟨m, ?_, fun _ => rfl⟩
      obtain ⟨rest, hrest⟩ := dataHeader_shape H hH
      subst hrest
      simp only [List.nil_append, headerPhase]
      rw [if_neg (by simp [lineBlank]), if_neg (by simp [lineIsComment, startsWithHash]), if_pos hH]
  | cons L pre ih =>
      intro hpre m
      have hLnh : lineIsDataHeader L = false := hpre L (by simp)
      have hpre' : ∀ L' ∈ pre, lineIsDataHeader L' = false := by
        intro L' hL'
        exact hpre L' (by simp [hL'])
      simp only [List.cons_append, headerPhase]
      by_cases hb : lineBlank L = true
      · rw [if_pos hb]
        obtain ⟨m', h1, h2⟩ := ih hpre' m
        exact ⟨m', h1, fun hek => h2 (fun L' hL' => hek L' (by simp [hL']))⟩
      · rw [if_neg hb]
        by_cases hcm : lineIsComment L = true
        · rw [if_pos hcm]
          obtain ⟨m', h1, h2⟩ := ih hpre' m
          exact ⟨m', h1, fun hek => h2 (fun L' hL' => hek L' (by simp [hL']))⟩
        · rw [if_neg hcm, if_neg (by simp [hLnh])]
          obtain ⟨m', h1, h2⟩ := ih hpre' (insertKV m L)
          refine ⟨m', h1, fun hek => ?_⟩
          rw [h2 (fun L' hL' => hek L' (by simp [hL']))]
          exact mapGet_insertKV_of_not_elements m L (hek L (by simp))

theorem getD_zero_eq_getElem (l : List ℝ) (i : ℕ) (h : i < l.length) :
    l.getD i 0 = l[i] := by
  rw [List.getD_eq_getElem?_getD, List.getElem?_eq_getElem h]
  rfl

theorem foldl_peak_lt (vals : List ℝ) (n : ℕ) :
    ∀ (l : List ℕ) (b : ℕ), (∀ j ∈ l, j < n) → b < n →
      (l.foldl (fun best i => if vals.getD best 0 < vals.getD i 0 then i else best) b) < n := by
  intro l
  induction l with
  | nil => intro b _ hb; exact hb
  | cons a t ih =>
      intro b hj hb
      simp only [List.foldl_cons]
      refine ih _ (fun j hjt => hj j (by simp [hjt])) ?_
      split
      · exact hj a (by simp)
      · exact hb

theorem foldl_peak_le (vals : List ℝ) :
    ∀ (l : List ℕ) (b : ℕ),
      vals.getD b 0 ≤ vals.getD
        (l.foldl (fun best i => if vals.getD best 0 < vals.getD i 0 then i else best) b) 0 ∧
      ∀ j ∈ l, vals.getD j 0 ≤ vals.getD
        (l.foldl (fun best i => if vals.getD best 0 < vals.getD i 0 then i else best) b) 0 := by
  intro l
  induction l with
  | nil => intro b; exact ⟨le_refl _, by simp⟩
  | cons a t ih =>
      intro b
      simp only [List.foldl_cons]
      obtain ⟨h1, h2⟩ := ih (if vals.getD b 0 < vals.getD a 0 then a else b)
      have hb : vals.getD b 0 ≤
          vals.getD (if vals.getD b 0 < vals.getD a 0 then a else b) 0 := by
        split
        · next hlt => exact le_of_lt hlt
        · exact le_refl _
      have ha : vals.getD a 0 ≤
          vals.getD (if vals.getD b 0 < vals.getD a 0 then a else b) 0 := by
        split
        · exact le_refl _
        · next hlt => exact le_of_not_lt hlt
      refine ⟨le_trans hb h1, ?_⟩
      intro j hjmem
      rcases List.mem_cons.mp hjmem with rfl | hjt
      · exact le_trans ha h1
      · exact h2 j hjt

theorem findPeakIdx_lt (vals : List ℝ) (h : vals ≠ []) :
    findPeakIdx vals < vals.length := by
  unfold findPeakIdx
  exact foldl_peak_lt vals vals.length (List.range vals.length) 0
    (fun j hj => List.mem_range.mp hj) (List.length_pos.mpr h)

theorem findPeakIdx_ge (vals : List ℝ) (j : ℕ) (hj : j < vals.length) :
    vals.getD j 0 ≤ vals.getD (findPeakIdx vals) 0 := by
  unfold findPeakIdx
  exact (foldl_peak_le vals (List.range vals.length) 0).2 j (List.mem_range.mpr hj)

theorem foldl_max_apply_le (g : ℝ → ℝ) (l : List ℝ) :
    ∀ init : ℝ, init ≤ l.foldl (fun m a => max m (g a)) init ∧
      ∀ x ∈ l, g x ≤ l.foldl (fun m a => max m (g a)) init := by
  induction l with
  | nil => intro init; exact ⟨le_refl _, by simp⟩
  | cons a t ih =>
      intro init
      simp only [List.foldl_cons]
      obtain ⟨h1, h2⟩ := ih (max init (g a))
      refine ⟨le_trans (le_max_left _ _) h1, ?_⟩
      intro x hx
      rcases List.mem_cons.mp hx with rfl | hxt
      · exact le_trans (le_max_right _ _) h1
      · exact h2 x hxt

theorem foldl_max_apply_attained (g : ℝ → ℝ) (l : List ℝ) :
    ∀ init : ℝ, l.foldl (fun m a => max m (g a)) init = init ∨
      ∃ a ∈ l, g a = l.foldl (fun m a => max m (g a)) init := by
  induction l with
  | nil => intro init; exact Or.inl rfl
  | cons a t ih =>
      intro init
      simp only [List.foldl_cons]
      rcases ih (max init (g a)) with h | ⟨x, hx, hxe⟩
      · rcases max_choice init (g a) with hc | hc
        · exact Or.inl (by rw [h, hc])
        · exact Or.inr ⟨a, by simp, by rw [h, hc]⟩
      · exact Or.inr ⟨x, by simp [hx], hxe⟩

theorem rawIntensity_nonneg (cfg : ProfileConfig) (a : ℝ) :
    0 ≤ rawIntensity cfg a := by
  unfold rawIntensity
  exact add_nonneg (mul_self_nonneg _) (mul_self_nonneg _)

theorem patternMaxI_ge (cfg : ProfileConfig) (angles : List ℝ) (a : ℝ)
    (ha : a ∈ angles) : rawIntensity cfg a ≤ patternMaxI cfg angles :=
  (foldl_max_apply_le (rawIntensity cfg) angles 0).2 a ha

theorem computePattern_true_eq (cfg : ProfileConfig) (angles : List ℝ)
    (h : 0 < patternMaxI cfg angles) :
    computePattern cfg angles true = angles.map (fun ang =>
      { angleDeg := ang
        intensityLin := rawIntensity cfg ang / patternMaxI cfg angles
        intensityDb := if 0 < rawIntensity cfg ang / patternMaxI cfg angles then
            ((10 * Real.logb 10 (rawIntensity cfg ang / patternMaxI cfg angles) : ℝ) : EReal)
          else ⊥ }) := by
  unfold computePattern
  simp only [if_pos h, if_true]

theorem headerPhase_config_lines (x1 x2 x4 x5 x6 : ℝ) (su wt cwv : String)
    (cf cc : Cell) (rows : List CsvLine) :
    headerPhase ([[.str "# BeamformerConfig"],
      [.str "elements", .num x1],
      [.str "spacing", .num x2],
      [.str "spacingUnit", .str su],
      [.str "frequencyHz", .num x4],
      [.str "waveSpeed", .num x5],
      [.str "steerAngleDeg", .num x6],
      [.str "windowType", .str wt],
      [.str "focusDepth", cf],
      [.str "chebyshevSidelobeDb", cc],
      [.str "customWeights", .str cwv],
      []]
      ++ ([.str "index", .str "weight", .str "phaseRadians", .str "timeDelaySeconds"]
            :: rows)) [] =
    some ([(.str "customWeights", [.str cwv]),
           (.str "chebyshevSidelobeDb", [cc]),
           (.str "focusDepth", [cf]),
           (.str "windowType", [.str wt]),
           (.str "steerAngleDeg", [.num x6]),
           (.str "waveSpeed", [.num x5]),
           (.str "frequencyHz", [.num x4]),
           (.str "spacingUnit", [.str su]),
           (.str "spacing", [.num x2]),
           (.str "elements", [.num x1])], rows) := by
  simp [headerPhase, lineBlank, lineIsComment, lineIsDataHeader, startsWithHash,
    insertKV]

theorem parseWeights_toCsvRows (phis taus : List ℝ) :
    ∀ (ws : List ℝ) (i : ℕ), parseWeights (toCsvRows i ws phis taus) = ws := by
  intro ws
  induction ws with
  | nil => intro i; rfl
  | cons w rest ih =>
      intro i
      show parseWeights ([.num (i : ℝ), .num w, cellOfIdx phis i, cellOfIdx taus i]
        :: toCsvRows (i + 1) rest phis taus) = w :: rest
      rw [parseWeights]
      rw [if_neg (by simp [lineBlank]), if_pos (by simp)]
      rw [ih (i + 1)]
      rfl

theorem normalizeMax_length (w : List ℝ) : (normalizeMax w).length = w.length := by
  by_cases h : 0 < maxAbs w <;> simp [normalizeMax, h]

theorem hammingWindow_length (N : ℕ) :
    (hammingWindow N).length = if N ≤ 1 then 1 else N := by
  by_cases h : N ≤ 1 <;> simp [hammingWindow, h]

end Sandbox

namespace Sandbox

/-! ## Claims -/

/-- **C9.** Both point-source generator variants ignore the scanline index:
`generateScanline(i, cfg)` and `generateScanline(j, cfg)` return equal sample
matrices for every generator configuration and dynamic config. -/
theorem c9_generator_scanline_independent
    (g : PointSourceGeneratorConfig) (i j : ℕ) (cfg : DynamicBeamformingConfig) :
    pointSourceScanlineIgnoredTx g i cfg = pointSourceScanlineIgnoredTx g j cfg ∧
    pointSourceScanlineTxRx g i cfg = pointSourceScanlineTxRx g j cfg :=
  ⟨rfl, rfl⟩

/-- **C7.** For a config with `windowType = "custom"` whose `customWeights`
is absent or of the wrong length, `computeWeights` raises no error and
silently returns the max-abs-normalized Hamming window of length
`elements`. -/
theorem c7_custom_weights_fallback (cfg : ProfileConfig)
    (hc : cfg.windowType = .custom)
    (hbad : ∀ cw, cfg.customWeights = some cw → cw.length ≠ cfg.elements) :
    computeWeights cfg = normalizeMax (hammingWindow cfg.elements) ∧
    (1 ≤ cfg.elements → (computeWeights cfg).length = cfg.elements) := by
  have hw : computeWeights cfg = normalizeMax (hammingWindow cfg.elements) := by
    unfold computeWeights
    rw [hc]
    simp only [if_pos rfl]
    cases hcw : cfg.customWeights with
    | none => rfl
    | some cw =>
        have hne := hbad cw hcw
        simp [hne]
  refine ⟨hw, fun hN => ?_⟩
  rw [hw, normalizeMax_length, hammingWindow_length]
  split <;> omega

/-- **C7 witness.** A concrete custom config with absent custom weights. -/
theorem c7_custom_weights_fallback_witness :
    computeWeights
        { elements := 4, spacing := 1, spacingUnit := .wavelength,
          frequencyHz := 1, waveSpeed := 1540, steerAngleDeg := 0,
          windowType := .custom, chebyshevSidelobeDb := none,
          focusDepth := none, customWeights := none } =
      normalizeMax (hammingWindow 4) ∧
    (computeWeights
        { elements := 4, spacing := 1, spacingUnit := .wavelength,
          frequencyHz := 1, waveSpeed := 1540, steerAngleDeg := 0,
          windowType := .custom, chebyshevSidelobeDb := none,
          focusDepth := none, customWeights := none }).length = 4 := by
  have h := c7_custom_weights_fallback
    { elements := 4, spacing := 1, spacingUnit := .wavelength,
      frequencyHz := 1, waveSpeed := 1540, steerAngleDeg := 0,
      windowType := .custom, chebyshevSidelobeDb := none,
      focusDepth := none, customWeights := none }
    rfl (by intro cw hcw; simp at hcw)
  exact ⟨h.1, h.2 (by norm_num)⟩

/-- **C6.** Under focused steering (`focusDepth = F > 0`) with an odd element
count `N = 2m+1`, the center element's time delay is exactly zero: the
reference range is taken from the array center, where the center element
sits. -/
theorem c6_focused_center_delay_zero (cfg : ProfileConfig) (m : ℕ) (F : ℝ)
    (hN : cfg.elements = 2 * m + 1) (hF : cfg.focusDepth = some F)
    (hFpos : 0 < F) :
    (computeDelays cfg).timeDelays.getD m 0 = 0 := by
  unfold computeDelays
  rw [hF]
  show ((if F = 0 then _ else _) : PerElementDelays).timeDelays.getD m 0 = 0
  rw [if_neg hFpos.ne']
  have hm : m < cfg.elements := by omega
  rw [List.getD_eq_getElem?_getD, List.getElem?_map, List.getElem?_range hm]
  have hx : ((m : ℝ) - ((cfg.elements : ℝ) - 1) / 2) * spacingMeters cfg = 0 := by
    have h2 : ((cfg.elements : ℝ) - 1) / 2 = (m : ℝ) := by
      rw [hN]; push_cast; ring
    rw [h2]; ring
  simp only [Option.map_some', Option.getD_some]
  rw [hx]
  rw [div_eq_zero_iff]
  left
  rw [sub_eq_zero]

/-- **C1 counterexample.** `makeWindow` itself is not max-abs normalized:
the triangular window at `N = 2` (a supported type and a listed size) is the
all-zero vector, whose maximum absolute value is `0`, not `1`. -/
theorem c1_makeWindow_counterexample :
    makeWindow .triangular 2 30 = [0, 0] ∧
    maxAbs (makeWindow .triangular 2 30) ≠ 1 := by
  have h : makeWindow .triangular 2 30 = [0, 0] := by
    show triangularWindow 2 = [0, 0]
    unfold triangularWindow
    rw [if_neg (by norm_num)]
    show List.map _ [0, 1] = [0, 0]
    simp only [List.map_cons, List.map_nil]
    norm_num
  refine ⟨h, ?_⟩
  rw [h]
  unfold maxAbs
  norm_num

/-- **C1 (amended).** The max-abs-1 normalization invariant holds one level
up, in `computeWeights`: for every preset (non-custom) window type, whenever
`makeWindow`'s output is not all-zero (i.e. has positive maximum absolute
value), the weights returned by `computeWeights` have maximum absolute value
exactly `1`. -/
theorem c1_computeWeights_normalized (cfg : ProfileConfig)
    (hnc : cfg.windowType ≠ .custom)
    (hpos : 0 < maxAbs (makeWindow cfg.windowType cfg.elements
        (cfg.chebyshevSidelobeDb.getD 30))) :
    maxAbs (computeWeights cfg) = 1 := by
  have hw : computeWeights cfg =
      normalizeMax (makeWindow cfg.windowType cfg.elements
        (cfg.chebyshevSidelobeDb.getD 30)) := by
    unfold computeWeights
    simp only [if_neg hnc]
  rw [hw]
  unfold normalizeMax
  rw [if_pos hpos, maxAbs_map_div _ _ hpos, div_self hpos.ne']

/-- **C1 witness.** An 8-element rectangular window: `makeWindow` yields all
ones (max-abs `1 > 0`), and `computeWeights` is normalized to max-abs `1`. -/
theorem c1_computeWeights_normalized_witness :
    maxAbs (computeWeights
      { elements := 8, spacing := 0.5, spacingUnit := .wavelength,
        frequencyHz := 5000000, waveSpeed := 1540, steerAngleDeg := 0,
        windowType := .rectangular, chebyshevSidelobeDb := none,
        focusDepth := none, customWeights := none }) = 1 := by
  refine c1_computeWeights_normalized _ (by simp) ?_
  show 0 < maxAbs (rectangularWindow 8)
  unfold rectangularWindow maxAbs
  norm_num [List.replicate]

/-- **C6 witness.** Concrete 3-element focused config: the center element's
delay is zero. -/
theorem c6_focused_center_delay_zero_witness :
    (computeDelays
        { elements := 3, spacing := 1, spacingUnit := .meters,
          frequencyHz := 1, waveSpeed := 1540, steerAngleDeg := 20,
          windowType := .rectangular, chebyshevSidelobeDb := none,
          focusDepth := some 1, customWeights := none }).timeDelays.getD 1 0 = 0 :=
  c6_focused_center_delay_zero
    { elements := 3, spacing := 1, spacingUnit := .meters,
      frequencyHz := 1, waveSpeed := 1540, steerAngleDeg := 20,
      windowType := .rectangular, chebyshevSidelobeDb := none,
      focusDepth := some 1, customWeights := none }
    1 1 rfl rfl (by norm_num)

/-- **C4.** `sampleRowLinear` follows the shared interpolation rule: writing
`s0 = ⌊idx⌋` and `frac = idx - s0`, it returns `0` when `s0` is outside
`[0, samples)`, the stored sample `matrix[s0][e]` when `frac ≤ 1e-12` or when
`s0+1` is out of bounds, and the linear interpolation
`matrix[s0][e]*(1-frac) + matrix[s0+1][e]*frac` otherwise; in particular it is
exact at integer indices and returns the last stored value at
`samples - 1 + 0.5`. -/
theorem c4_sampleRowLinear_spec (matrix : SampleMatrix) (e : ℕ) (idx : ℝ)
    (he : ∀ row ∈ matrix, e < row.length) :
    (⌊idx⌋ < 0 ∨ (matrix.length : ℤ) ≤ ⌊idx⌋ →
        sampleRowLinear matrix e idx = 0) ∧
    (0 ≤ ⌊idx⌋ → ⌊idx⌋ < (matrix.length : ℤ) → idx - (⌊idx⌋ : ℝ) ≤ 1e-12 →
        sampleRowLinear matrix e idx = (matrix.getD (⌊idx⌋).toNat []).getD e 0) ∧
    (0 ≤ ⌊idx⌋ → ⌊idx⌋ < (matrix.length : ℤ) → (matrix.length : ℤ) ≤ ⌊idx⌋ + 1 →
        sampleRowLinear matrix e idx = (matrix.getD (⌊idx⌋).toNat []).getD e 0) ∧
    (0 ≤ ⌊idx⌋ → ⌊idx⌋ < (matrix.length : ℤ) → 1e-12 < idx - (⌊idx⌋ : ℝ) →
        ⌊idx⌋ + 1 < (matrix.length : ℤ) →
        sampleRowLinear matrix e idx =
          (matrix.getD (⌊idx⌋).toNat []).getD e 0 * (1 - (idx - (⌊idx⌋ : ℝ)))
            + (matrix.getD ((⌊idx⌋).toNat + 1) []).getD e 0 * (idx - (⌊idx⌋ : ℝ))) ∧
    (∀ n : ℕ, n < matrix.length →
        sampleRowLinear matrix e (n : ℝ) = (matrix.getD n []).getD e 0) ∧
    (1 ≤ matrix.length →
        sampleRowLinear matrix e ((matrix.length : ℝ) - 1 + 1 / 2) =
          (matrix.getD (matrix.length - 1) []).getD e 0) := by
  have hunfold : ∀ j : ℝ, sampleRowLinear matrix e j =
      if ⌊j⌋ < 0 ∨ (matrix.length : ℤ) ≤ ⌊j⌋ then 0
      else if j - (⌊j⌋ : ℝ) ≤ 1e-12 then (matrix.getD (⌊j⌋).toNat []).getD e 0
      else if ⌊j⌋ + 1 < 0 ∨ (matrix.length : ℤ) ≤ ⌊j⌋ + 1 then
        (matrix.getD (⌊j⌋).toNat []).getD e 0
      else (matrix.getD (⌊j⌋).toNat []).getD e 0 * (1 - (j - (⌊j⌋ : ℝ)))
            + (matrix.getD ((⌊j⌋ + 1 : ℤ)).toNat []).getD e 0 * (j - (⌊j⌋ : ℝ)) := by
    intro j
    rfl
  refine ⟨?_, ?_, ?_, ?_, ?_, ?_⟩
  · intro h
    rw [hunfold, if_pos h]
  · intro h0 h1 hfrac
    rw [hunfold, if_neg (by omega), if_pos hfrac]
  · intro h0 h1 h2
    rw [hunfold, if_neg (by omega)]
    split
    · rfl
    · rw [if_pos (Or.inr h2)]
  · intro h0 h1 hfrac h2
    rw [hunfold, if_neg (by omega), if_neg (by linarith), if_neg (by omega)]
    have h3 : ((⌊idx⌋ + 1 : ℤ)).toNat = (⌊idx⌋).toNat + 1 := by omega
    rw [h3]
  · intro n hn
    have hfl : ⌊(n : ℝ)⌋ = (n : ℤ) := Int.floor_natCast n
    rw [hunfold, hfl]
    rw [if_neg (by omega)]
    have hfrac : (n : ℝ) - ((n : ℤ) : ℝ) ≤ 1e-12 := by
      push_cast
      norm_num
    rw [if_pos hfrac]
    simp
  · intro hlen
    set j : ℝ := (matrix.length : ℝ) - 1 + 1 / 2 with hj
    have hfl : ⌊j⌋ = (matrix.length : ℤ) - 1 := by
      rw [hj, Int.floor_eq_iff]
      push_cast
      have h1 : (1 : ℝ) ≤ (matrix.length : ℝ) := by exact_mod_cast hlen
      constructor <;> nlinarith
    rw [hunfold, hfl]
    rw [if_neg (by omega)]
    have hfrac : ¬ (j - (((matrix.length : ℤ) - 1 : ℤ) : ℝ) ≤ 1e-12) := by
      rw [hj]
      push_cast
      norm_num
    rw [if_neg hfrac, if_pos (by omega)]
    congr 2
    omega

/-- **C3.** For non-phased scanning and a sample matrix of the configured
shape, the delay-and-sum beamformer does not fail and returns exactly the
plain sum beamformer's output (length `samples`), and the apodized
delay-and-sum beamformer returns the non-delayed apodized sum
`out[s] = Σ_e weights[e] * matrix[s][e]`, also of length `samples`. -/
theorem c3_nonphased_fallback (matrix : SampleMatrix) (i : ℕ)
    (cfg : DynamicBeamformingConfig) (opts : ApodizedOptions)
    (hty : cfg.scanning.type ≠ .phased)
    (hrows : matrix.length = cfg.scanning.samples)
    (hcols : ∀ row ∈ matrix, row.length = cfg.array.elements) :
    delayAndSumBeamform matrix i cfg = sumBeamform matrix i cfg ∧
    (delayAndSumBeamform matrix i cfg).length = cfg.scanning.samples ∧
    delayAndSumApodizedBeamform opts matrix i cfg =
      (List.range cfg.scanning.samples).map (fun (s : ℕ) =>
        ((List.range cfg.array.elements).map (fun (e : ℕ) =>
          (makeWindow (opts.windowType.getD .hamming) cfg.array.elements
              (opts.chebyshevSidelobeDb.getD 30)).getD e 0 *
            (matrix.getD s []).getD e 0)).sum) ∧
    (delayAndSumApodizedBeamform opts matrix i cfg).length = cfg.scanning.samples := by
  have h1 : delayAndSumBeamform matrix i cfg = sumBeamform matrix i cfg := by
    unfold delayAndSumBeamform sumBeamform
    rw [if_pos hty]
  have h2 : delayAndSumApodizedBeamform opts matrix i cfg =
      (List.range cfg.scanning.samples).map (fun (s : ℕ) =>
        ((List.range cfg.array.elements).map (fun (e : ℕ) =>
          (makeWindow (opts.windowType.getD .hamming) cfg.array.elements
              (opts.chebyshevSidelobeDb.getD 30)).getD e 0 *
            (matrix.getD s []).getD e 0)).sum) := by
    unfold delayAndSumApodizedBeamform
    rw [if_pos hty]
    simp only [mul_comm]
  refine ⟨h1, ?_, h2, ?_⟩
  · rw [h1]
    unfold sumBeamform
    simp
  · rw [h2]
    simp

/-- **C3 witness.** A concrete 2×2 matrix under linear scanning. -/
theorem c3_nonphased_fallback_witness :
    delayAndSumBeamform [[(1 : ℝ), 2], [3, 4]] 0
        { timeStep := 1e-6, propagationSpeed := 1540,
          scanning := { numScanLines := 4, type := .linear, range := (-1, 1), samples := 2 },
          array := { elements := 2, elementSpacing := 1e-3 } } =
      sumBeamform [[(1 : ℝ), 2], [3, 4]] 0
        { timeStep := 1e-6, propagationSpeed := 1540,
          scanning := { numScanLines := 4, type := .linear, range := (-1, 1), samples := 2 },
          array := { elements := 2, elementSpacing := 1e-3 } } ∧
    (delayAndSumApodizedBeamform { windowType := none, chebyshevSidelobeDb := none }
        [[(1 : ℝ), 2], [3, 4]] 0
        { timeStep := 1e-6, propagationSpeed := 1540,
          scanning := { numScanLines := 4, type := .linear, range := (-1, 1), samples := 2 },
          array := { elements := 2, elementSpacing := 1e-3 } }).length = 2 := by
  have h := c3_nonphased_fallback [[(1 : ℝ), 2], [3, 4]] 0
    { timeStep := 1e-6, propagationSpeed := 1540,
      scanning := { numScanLines := 4, type := .linear, range := (-1, 1), samples := 2 },
      array := { elements := 2, elementSpacing := 1e-3 } }
    { windowType := none, chebyshevSidelobeDb := none }
    (by simp) rfl
    (by intro row hrow; simp at hrow; rcases hrow with h | h <;> simp [h])
  exact ⟨h.1, h.2.2.2⟩

/-- **C10.** For any CSV whose lines contain the data header row with no
`elements` key line before it, `parseCsvConfig` succeeds (no throw) and
returns a config with `elements = 0` — violating the documented
`elements ≥ 1` invariant of `ProfileConfig`. -/
theorem c10_missing_elements_parses_zero (pre post : List CsvLine) (H : CsvLine)
    (hH : lineIsDataHeader H = true)
    (hpre : ∀ L ∈ pre, lineIsDataHeader L = false ∧ elementsKeyLine L = false) :
    ∃ r, parseCsvConfig (pre ++ H :: post) = .ok r ∧ r.config.elements = 0 := by
  obtain ⟨m', h1, h2⟩ := headerPhase_append H post hH pre
    (fun L hL => (hpre L hL).1) []
  have hm' : mapGet m' "elements" = none := by
    rw [h2 (fun L hL => (hpre L hL).2)]
    rfl
  refine ⟨{ config := buildParsedConfig m' (parseWeights post),
            weights := parseWeights post }, ?_, ?_⟩
  · unfold parseCsvConfig
    rw [h1]
  · show (buildParsedConfig m' (parseWeights post)).elements = 0
    unfold buildParsedConfig
    rw [hm']

/-- **C10 witness.** The one-line CSV consisting of just the data header. -/
theorem c10_missing_elements_parses_zero_witness :
    ∃ r, parseCsvConfig [[.str "index", .str "weight", .str "phaseRadians",
        .str "timeDelaySeconds"]] = .ok r ∧ r.config.elements = 0 := by
  have h := c10_missing_elements_parses_zero [] []
    [.str "index", .str "weight", .str "phaseRadians", .str "timeDelaySeconds"]
    (by decide) (by simp)
  simpa using h

/-- **C2.** Round-trip serialization: for every profile whose snapshot has
one weight per element, `parseCsvConfig(toCsv(profile))` succeeds and
reproduces every config field — the numeric fields exactly (numbers are
written and re-read at full precision), the enumeration fields as their
written strings, the optional fields including their absence — and returns a
weights list of length `elements`. -/
theorem c2_csv_roundtrip (p : BeamformFullProfile)
    (hw : p.snapshot.weights.length = p.config.elements) :
    ∃ r, parseCsvConfig (toCsv p) = .ok r ∧
      r.config.elements = (p.config.elements : ℝ) ∧
      r.config.spacing = p.config.spacing ∧
      r.config.spacingUnit = spacingUnitStr p.config.spacingUnit ∧
      r.config.frequencyHz = p.config.frequencyHz ∧
      r.config.waveSpeed = p.config.waveSpeed ∧
      r.config.steerAngleDeg = p.config.steerAngleDeg ∧
      r.config.windowType = windowTypeStr p.config.windowType ∧
      r.config.focusDepth = p.config.focusDepth ∧
      r.config.chebyshevSidelobeDb = p.config.chebyshevSidelobeDb ∧
      r.weights.length = p.config.elements := by
  have ht : toCsv p = [[.str "# BeamformerConfig"],
      [.str "elements", .num (p.config.elements : ℝ)],
      [.str "spacing", .num p.config.spacing],
      [.str "spacingUnit", .str (spacingUnitStr p.config.spacingUnit)],
      [.str "frequencyHz", .num p.config.frequencyHz],
      [.str "waveSpeed", .num p.config.waveSpeed],
      [.str "steerAngleDeg", .num p.config.steerAngleDeg],
      [.str "windowType", .str (windowTypeStr p.config.windowType)],
      [.str "focusDepth", match p.config.focusDepth with
        | some x => .num x
        | none => .str ""],
      [.str "chebyshevSidelobeDb", match p.config.chebyshevSidelobeDb with
        | some x => .num x
        | none => .str ""],
      [.str "customWeights", .str (match p.config.customWeights with
        | some _ => "present"
        | none => "")],
      []]
      ++ ([.str "index", .str "weight", .str "phaseRadians", .str "timeDelaySeconds"]
            :: toCsvRows 0 p.snapshot.weights p.snapshot.delays.phaseRadians
                 p.snapshot.delays.timeDelays) := rfl
  have hopt : ∀ o : Option ℝ,
      (if valTruthy [match o with | some x => Cell.num x | none => Cell.str ""]
        then some (valNumber [match o with | some x => Cell.num x | none => Cell.str ""])
        else none) = o := by
    intro o
    cases o <;> simp [valTruthy, valNumber, cellNumber]
  have hwts : parseWeights (toCsvRows 0 p.snapshot.weights
      p.snapshot.delays.phaseRadians p.snapshot.delays.timeDelays)
      = p.snapshot.weights :=
    parseWeights_toCsvRows _ _ _ 0
  unfold parseCsvConfig
  rw [ht, headerPhase_config_lines]
  refine ⟨_, rfl, ?_, ?_, ?_, ?_, ?_, ?_, ?_, ?_, ?_, ?_⟩
  · show (buildParsedConfig _ _).elements = _
    unfold buildParsedConfig
    simp [mapGet, keyMatches, valNumber, cellNumber]
  · show (buildParsedConfig _ _).spacing = _
    unfold buildParsedConfig
    simp [mapGet, keyMatches, valNumber, cellNumber]
  · show (buildParsedConfig _ _).spacingUnit = _
    unfold buildParsedConfig
    simp [mapGet, keyMatches, valString]
  · show (buildParsedConfig _ _).frequencyHz = _
    unfold buildParsedConfig
    simp [mapGet, keyMatches, valNumber, cellNumber]
  · show (buildParsedConfig _ _).waveSpeed = _
    unfold buildParsedConfig
    simp [mapGet, keyMatches, valNumber, cellNumber]
  · show (buildParsedConfig _ _).steerAngleDeg = _
    unfold buildParsedConfig
    simp [mapGet, keyMatches, valNumber, cellNumber]
  · show (buildParsedConfig _ _).windowType = _
    unfold buildParsedConfig
    simp [mapGet, keyMatches, valString]
  · show (buildParsedConfig _ _).focusDepth = _
    unfold buildParsedConfig
    simp only [mapGet, keyMatches, List.find?]
    simp only [show (("customWeights" == "focusDepth") : Bool) = false from rfl,
      show (("chebyshevSidelobeDb" == "focusDepth") : Bool) = false from rfl,
      show (("focusDepth" == "focusDepth") : Bool) = true from rfl]
    simpa using hopt p.config.focusDepth
  · show (buildParsedConfig _ _).chebyshevSidelobeDb = _
    unfold buildParsedConfig
    simp only [mapGet, keyMatches, List.find?]
    simp only [show (("customWeights" == "chebyshevSidelobeDb") : Bool) = false from rfl,
      show (("chebyshevSidelobeDb" == "chebyshevSidelobeDb") : Bool) = true from rfl]
    simpa using hopt p.config.chebyshevSidelobeDb
  · show (parseWeights _).length = _
    rw [hwts, hw]

/-- **C2 witness.** The concrete two-element profile round-trips. -/
theorem c2_csv_roundtrip_witness :
    ∃ r, parseCsvConfig (toCsv testProfile) = .ok r ∧
      r.config.elements = (testProfile.config.elements : ℝ) ∧
      r.config.spacing = testProfile.config.spacing ∧
      r.config.spacingUnit = spacingUnitStr testProfile.config.spacingUnit ∧
      r.config.frequencyHz = testProfile.config.frequencyHz ∧
      r.config.waveSpeed = testProfile.config.waveSpeed ∧
      r.config.steerAngleDeg = testProfile.config.steerAngleDeg ∧
      r.config.windowType = windowTypeStr testProfile.config.windowType ∧
      r.config.focusDepth = testProfile.config.focusDepth ∧
      r.config.chebyshevSidelobeDb = testProfile.config.chebyshevSidelobeDb ∧
      r.weights.length = testProfile.config.elements :=
  c2_csv_roundtrip testProfile rfl

/-- **C5.** When the raw array-factor intensity is strictly positive at some
sweep angle, `computePattern(cfg, angles, true)` contains a point with
`intensityLin = 1` and `intensityDb = 0`, every point has
`intensityLin ≤ 1`, and `intensityDb = -Infinity` exactly at the points with
`intensityLin = 0`. -/
theorem c5_pattern_peak_normalized (cfg : ProfileConfig) (angles : List ℝ)
    (hpos : ∃ a ∈ angles, 0 < rawIntensity cfg a) :
    (∃ p ∈ computePattern cfg angles true,
        p.intensityLin = 1 ∧ p.intensityDb = 0) ∧
    (∀ p ∈ computePattern cfg angles true, p.intensityLin ≤ 1) ∧
    (∀ p ∈ computePattern cfg angles true,
        (p.intensityDb = ⊥ ↔ p.intensityLin = 0)) := by
  obtain ⟨a0, ha0mem, ha0pos⟩ := hpos
  have hmaxpos : 0 < patternMaxI cfg angles :=
    lt_of_lt_of_le ha0pos (patternMaxI_ge cfg angles a0 ha0mem)
  have hcp := computePattern_true_eq cfg angles hmaxpos
  refine ⟨?_, ?_, ?_⟩
  · rcases foldl_max_apply_attained (rawIntensity cfg) angles 0 with hz | ⟨a1, ha1, ha1e⟩
    · have h0 : patternMaxI cfg angles = 0 := hz
      rw [h0] at hmaxpos
      exact absurd hmaxpos (lt_irrefl 0)
    · have ha1e' : rawIntensity cfg a1 = patternMaxI cfg angles := ha1e
      refine ⟨{ angleDeg := a1
                intensityLin := rawIntensity cfg a1 / patternMaxI cfg angles
                intensityDb := if 0 < rawIntensity cfg a1 / patternMaxI cfg angles then
                    ((10 * Real.logb 10 (rawIntensity cfg a1 / patternMaxI cfg angles) : ℝ) : EReal)
                  else ⊥ }, ?_, ?_, ?_⟩
      · rw [hcp]
        exact List.mem_map_of_mem _ ha1
      · show rawIntensity cfg a1 / patternMaxI cfg angles = 1
        rw [ha1e', div_self hmaxpos.ne']
      · show (if 0 < rawIntensity cfg a1 / patternMaxI cfg angles then
            ((10 * Real.logb 10 (rawIntensity cfg a1 / patternMaxI cfg angles) : ℝ) : EReal)
          else ⊥) = 0
        rw [ha1e', div_self hmaxpos.ne']
        rw [if_pos one_pos]
        norm_num
  · intro p hp
    rw [hcp] at hp
    obtain ⟨a, ha, rfl⟩ := List.mem_map.mp hp
    show rawIntensity cfg a / patternMaxI cfg angles ≤ 1
    exact (div_le_one hmaxpos).mpr (patternMaxI_ge cfg angles a ha)
  · intro p hp
    rw [hcp] at hp
    obtain ⟨a, ha, rfl⟩ := List.mem_map.mp hp
    show (if 0 < rawIntensity cfg a / patternMaxI cfg angles then
        ((10 * Real.logb 10 (rawIntensity cfg a / patternMaxI cfg angles) : ℝ) : EReal)
      else ⊥) = ⊥ ↔ rawIntensity cfg a / patternMaxI cfg angles = 0
    by_cases hl : 0 < rawIntensity cfg a / patternMaxI cfg angles
    · rw [if_pos hl]
      simp only [EReal.coe_ne_bot, false_iff]
      exact hl.ne'
    · rw [if_neg hl]
      have hge : 0 ≤ rawIntensity cfg a / patternMaxI cfg angles :=
        div_nonneg (rawIntensity_nonneg cfg a) hmaxpos.le
      simp only [true_iff]
      exact le_antisymm (le_of_not_lt hl) hge

/-- `computeWeights` on the one-element rectangular test config is `[1]`. -/
theorem computeWeights_rectCfg1 : computeWeights rectCfg1 = [1] := by
  have h0 : computeWeights rectCfg1 = normalizeMax [1] := rfl
  rw [h0]
  have h1 : maxAbs [(1 : ℝ)] = 1 := by
    unfold maxAbs
    norm_num
  unfold normalizeMax
  rw [h1]
  norm_num

/-- The raw array-factor intensity of the test config at broadside is `1`. -/
theorem rawIntensity_rectCfg1 : rawIntensity rectCfg1 0 = 1 := by
  unfold rawIntensity
  rw [computeWeights_rectCfg1]
  show (let d := spacingMeters rectCfg1;
    let lambda := (1540 : ℝ) / 5000000;
    let kd := (2 * Real.pi / lambda) * d;
    let c : ℝ := (((1 : ℕ) : ℝ) - 1) / 2;
    let s0 := Real.sin ((0 : ℝ) * Real.pi / 180);
    let s := Real.sin ((0 : ℝ) * Real.pi / 180);
    let re := ((List.range 1).map (fun (i : ℕ) =>
      ([(1 : ℝ)].getD i 0) * Real.cos (((i : ℝ) - c) * kd * (s - s0)))).sum;
    let im := ((List.range 1).map (fun (i : ℕ) =>
      ([(1 : ℝ)].getD i 0) * Real.sin (((i : ℝ) - c) * kd * (s - s0)))).sum;
    re * re + im * im) = 1
  norm_num [List.range_succ, List.range_zero]

/-- **C5 witness.** The test config on the single sweep angle `0`. -/
theorem c5_pattern_peak_normalized_witness :
    (∃ p ∈ computePattern rectCfg1 [0] true,
        p.intensityLin = 1 ∧ p.intensityDb = 0) ∧
    (∀ p ∈ computePattern rectCfg1 [0] true, p.intensityLin ≤ 1) ∧
    (∀ p ∈ computePattern rectCfg1 [0] true,
        (p.intensityDb = ⊥ ↔ p.intensityLin = 0)) :=
  c5_pattern_peak_normalized rectCfg1 [0]
    ⟨0, by simp, by rw [rawIntensity_rectCfg1]; norm_num⟩

/-- **C8.** `computePatternStats` on an empty input, or on an input whose
maximal `intensityLin` is `0`, raises no error and returns the all-`null`
result (`pslDb`, `pslLin`, `islrDb`, `fwhmDeg` all `null`). -/
theorem c8_degenerate_stats_all_null (points : List PatternPoint)
    (h : points = [] ∨ ((∀ p ∈ points, p.intensityLin ≤ 0) ∧
        ∃ p ∈ points, p.intensityLin = 0)) :
    computePatternStats points = allNullStats := by
  rcases h with h | ⟨hle, p0, hp0mem, hp0⟩
  · subst h
    rfl
  · unfold computePatternStats
    by_cases hnil : points.length = 0
    · rw [if_pos hnil]
    · rw [if_neg hnil]
      have hperm : List.Perm
          (points.mergeSort (fun a b => decide (a.angleDeg ≤ b.angleDeg)))
          points := List.mergeSort_perm points _
      set sorted := points.mergeSort (fun a b => decide (a.angleDeg ≤ b.angleDeg))
        with hsorted
      set vals := sorted.map (fun p => p.intensityLin) with hvals
      have hvlen : vals.length = points.length := by
        rw [hvals, List.length_map, hperm.length_eq]
      have hne : vals ≠ [] := by
        intro hcon
        rw [hcon] at hvlen
        exact hnil hvlen.symm
      have hpk_lt : findPeakIdx vals < vals.length := findPeakIdx_lt vals hne
      have h1 : vals.getD (findPeakIdx vals) 0 ≤ 0 := by
        rw [getD_zero_eq_getElem vals _ hpk_lt]
        have hmem : vals[findPeakIdx vals] ∈ sorted.map (fun p => p.intensityLin) :=
          List.getElem_mem hpk_lt
        obtain ⟨p, hp, hpe⟩ := List.mem_map.mp hmem
        rw [← hpe]
        exact hle p (hperm.subset hp)
      have h2 : 0 ≤ vals.getD (findPeakIdx vals) 0 := by
        have hp0s : p0 ∈ sorted := hperm.mem_iff.mpr hp0mem
        obtain ⟨i, hi, hieq⟩ := List.mem_iff_getElem.mp hp0s
        have hiv : i < vals.length := by
          rw [hvals, List.length_map]
          exact hi
        have hgi : vals.getD i 0 = 0 := by
          have hmap : vals.getD i 0
              = (sorted.map (fun p => p.intensityLin)).getD i 0 := rfl
          rw [hmap, List.getD_eq_getElem?_getD, List.getElem?_map,
            List.getElem?_eq_getElem hi]
          simp only [Option.map_some', Option.getD_some]
          rw [hieq, hp0]
        calc (0 : ℝ) = vals.getD i 0 := hgi.symm
          _ ≤ vals.getD (findPeakIdx vals) 0 := findPeakIdx_ge vals i hiv
      rw [if_pos (le_antisymm h1 h2)]

/-- **C8 witness.** The empty pattern yields the all-`null` statistics. -/
theorem c8_degenerate_stats_all_null_witness :
    computePatternStats [] = allNullStats :=
  c8_degenerate_stats_all_null [] (Or.inl rfl)

/-- **C4 witness.** Interpolation exactness at the integer index 1 of a
concrete 2×1 matrix. -/
theorem c4_sampleRowLinear_spec_witness :
    sampleRowLinear [[(5 : ℝ)], [7]] 0 ((1 : ℕ) : ℝ) = 7 := by
  have h := (c4_sampleRowLinear_spec [[(5 : ℝ)], [7]] 0 ((1 : ℕ) : ℝ)
    (by intro row hrow; simp at hrow; rcases hrow with h | h <;> simp [h])).2.2.2.2.1
    1 (by norm_num)
  simpa using h

end Sandbox
